import Mathlib

/-!
# Verification of the c-exception arena allocator and thread shim

Shallow embedding of the repository's arena allocator (`arena_init`,
`malloc_arena`, `calloc_arena`, `arena_clear`, `arena_free`,
`arena_capacity`, `arena_total` from the unnamed arena source file) and of
the deadline-based lock/wait operations of the portable thread shim
(`mtx_timedlock`, `cnd_timedwait` from `src/cthread.c`).

Modelling conventions:
- Pointers are natural numbers; `0` is `NULL`.  The process heap is an
  association list from block addresses to `arena_s` records (only
  `arena_s`-typed memory is ever read through pointers by the modelled
  code).  The system allocator hands out fresh, increasing, non-overlapping
  addresses and always succeeds in the main model; the out-of-memory
  behaviour of `try_malloc`/`try_realloc` is modelled separately with an
  explicit budget.
- `char *` pointers (`avail`, `limit`) are byte addresses, modelled as
  `Int` so that pointer differences and decrements are exact.  `size_t`
  values that may be produced from a pointer difference are reduced modulo
  `2 ^ 64` (`sizeT`).
- `sizeof(union header)` is the positive constant `headerSize = 16`; the
  claims under verification do not depend on its concrete value.
  `sizeof(struct arena_s)` is `arenaStructSize = 56`.
- The C `while` loops are modelled with explicit fuel; running out of fuel
  (or dereferencing a pointer that is not a live block) yields `none`,
  which models divergence / undefined behaviour.  All positive theorems
  are conditioned on the operation producing `some` result.
- `RAII_ASSERT` is modelled as a guard that refuses the call (`none`)
  when its condition fails, matching the spec's contract-violation
  (assertion-failure) behaviour; the assertion code itself is not in the
  sources provided.
-/

/-- Distinct `raii_type` tags; the header defining the enumeration is not in
the sources, only the sums `RAII_ARENA` and `RAII_ARENA + RAII_STRUCT` are
used by the arena code and they must be distinct nonzero values. -/
def RAII_ARENA : Nat := 1

/-- Second tag component; see `RAII_ARENA`. -/
def RAII_STRUCT : Nat := 2

/-- Free-list cap: `#define THRESHOLD 10` (default). -/
def THRESHOLD : Int := 10

/-- Model of `sizeof(union header)`: alignment unit of the allocator. -/
def headerSize : Nat := 16

/-- Model of `sizeof(struct arena_s)`, the bytes taken by a handle. -/
def arenaStructSize : Nat := 56

/-- Reduction of an `Int` to a `size_t` value (modulo `2 ^ 64`). -/
def sizeT (i : Int) : Nat := (i % ((2 : Int) ^ 64)).toNat

/-- The fields of `struct arena_s`.  `type` is the `raii_type` tag, `prev`
the retired-chunk link (an address, `0` = `NULL`), `avail`/`limit` the bump
pointers (byte addresses), `base` the address of the block obtained from the
system allocator, `bytes` the size of the most recent allocation and
`total` the total size requested from the system allocator. -/
structure ArenaS where
  type : Nat
  prev : Nat
  avail : Int
  limit : Int
  base : Nat
  bytes : Int
  total : Int
  deriving Repr, DecidableEq

/-- Uninitialized block contents (always overwritten before being read). -/
def junkArena : ArenaS := ⟨0, 0, 0, 0, 0, 0, 0⟩

/-- Heap: association list from block address to `arena_s` contents. -/
abbrev Heap := List (Nat × ArenaS)

/-- Read the `arena_s` stored at address `a` (`none` = dangling pointer). -/
def hget : Heap → Nat → Option ArenaS
  | [], _ => none
  | p :: t, a => if p.1 = a then some p.2 else hget t a

/-- Overwrite the `arena_s` stored at address `a` (no-op when dangling). -/
def hset : Heap → Nat → ArenaS → Heap
  | [], _, _ => []
  | p :: t, a, v => if p.1 = a then (a, v) :: t else p :: hset t a v

/-- Remove the block at address `a` (used for `free`/`realloc`). -/
def hdel : Heap → Nat → Heap
  | [], _ => []
  | p :: t, a => if p.1 = a then hdel t a else p :: hdel t a

/-- Insert a fresh block at address `a`. -/
def hinsert (h : Heap) (a : Nat) (v : ArenaS) : Heap :=
  (a, v) :: hdel h a

/-- Process-wide state: the heap, the two globals of the arena source file
(`free_list`, `num_free` — the counter is a C `int` and may go negative),
and the system allocator's next fresh address. -/
structure GState where
  heap : Heap
  freeList : Nat
  numFree : Int
  nextAddr : Nat
  deriving Repr, DecidableEq

/-- The initial process state: `free_list = NULL`, `num_free = 0`. -/
def initState : GState := ⟨[], 0, 0, 1⟩

/-- Model of `arena_init`: allocate a handle and initialize every field
(`prev = NULL`, `limit = avail = NULL`, `base = NULL`, `total = bytes = 0`,
`type = RAII_ARENA + RAII_STRUCT`).  Allocation success is assumed in this
model; the failure path is covered by `arena_initE`. -/
def arena_init (s : GState) : Nat × GState :=
  let p := s.nextAddr
  let h : ArenaS :=
    { type := RAII_ARENA + RAII_STRUCT, prev := 0, avail := 0, limit := 0,
      base := 0, bytes := 0, total := 0 }
  (p, { s with heap := hinsert s.heap p h, nextAddr := s.nextAddr + arenaStructSize })

/-- Model of `arena_capacity`: `0` for an empty handle or a handle whose tag
is not `RAII_ARENA + RAII_STRUCT`, otherwise the `size_t` value of
`limit - avail`. -/
def arena_capacity (s : GState) (a : Nat) : Nat :=
  if a = 0 then 0 else
  match hget s.heap a with
  | none => 0
  | some h =>
    if h.type = RAII_ARENA + RAII_STRUCT then sizeT (h.limit - h.avail) else 0

/-- Model of `arena_total`: `0` for an empty or non-arena handle, otherwise
`MAX(total, sizeof(union header)) - sizeof(union header)` in `size_t`. -/
def arena_total (s : GState) (a : Nat) : Nat :=
  if a = 0 then 0 else
  match hget s.heap a with
  | none => 0
  | some h =>
    if h.type = RAII_ARENA + RAII_STRUCT then
      max (sizeT h.total) headerSize - headerSize
    else 0

/-- Model of `arena_free`: no-op on an empty handle; on an arena handle the
first pointer-sized bytes of the handle are clobbered (only the `type` tag,
which is immediately discarded because both the base block and the handle
are then returned to the system allocator); on a handle with a different
tag nothing happens. -/
def arena_free (s : GState) (a : Nat) : Option GState :=
  if a = 0 then some s else
  match hget s.heap a with
  | none => none
  | some h =>
    if h.type = RAII_ARENA + RAII_STRUCT then
      some { s with heap := hdel (hdel s.heap a) h.base }
    else some s

/-- Rounding of a request to the next multiple of `sizeof(union header)`:
`((nbytes + sizeof(union header) - 1) / sizeof(union header)) *
sizeof(union header)`.  The C division is on positive operands (the request
is asserted positive), where C and Lean integer division agree. -/
def roundUp (n : Int) : Int :=
  (n + (headerSize : Int) - 1) / (headerSize : Int) * (headerSize : Int)

/-- Common tail of both branches of the chunk-acquisition loop body:
`*ptr = *arena; arena->avail = (char *)((union header *)ptr + 1);
arena->limit = limit; arena->prev = ptr; ptr->type = RAII_ARENA;`
executed in exactly this order (re-reading through the pointers between
the writes, so aliasing between `arena` and `ptr` is handled faithfully). -/
def installChunk (s : GState) (a ptr : Nat) (limit : Int) : Option GState :=
  match hget s.heap a with
  | none => none
  | some ar =>
    let h1 := hset s.heap ptr ar
    match hget h1 a with
    | none => none
    | some ar1 =>
      let h2 := hset h1 a
        { ar1 with avail := (ptr : Int) + (headerSize : Int), limit := limit, prev := ptr }
      match hget h2 ptr with
      | none => none
      | some pc =>
        some { s with heap := hset h2 ptr { pc with type := RAII_ARENA } }

/-- One iteration of the body of `malloc_arena`'s `while` loop: pop the
free list when it is non-empty (`free_list = free_list->prev; num_free--`,
reusing the popped chunk's stored `limit`), otherwise grow through the
system allocator (`m = sizeof(union header) + nbytes + THRESHOLD * 1024;
arena->total += m; ptr = try_realloc(arena->base, arena->total)`), then
install the acquired chunk.  `nbytes` is the already-rounded request. -/
def acquire_chunk (s : GState) (a : Nat) (nbytes : Int) : Option GState :=
  if s.freeList ≠ 0 then
    match hget s.heap s.freeList with
    | none => none
    | some fc =>
      let ptr := s.freeList
      installChunk { s with freeList := fc.prev, numFree := s.numFree - 1 } a ptr fc.limit
  else
    match hget s.heap a with
    | none => none
    | some ar =>
      let m := (headerSize : Int) + nbytes + THRESHOLD * 1024
      let total2 := ar.total + m
      let h1 := hset s.heap a { ar with total := total2 }
      let p := s.nextAddr
      let h2 := match hget h1 ar.base with
                | some c => hinsert (hdel h1 ar.base) p c
                | none => hinsert h1 p junkArena
      let s1 : GState :=
        { heap := h2, freeList := s.freeList, numFree := s.numFree,
          nextAddr := s.nextAddr + m.toNat }
      match hget s1.heap a with
      | none => none
      | some ar1 =>
        installChunk { s1 with heap := hset s1.heap a { ar1 with base := p } }
          a p ((p : Int) + total2)

/-- The `while (nbytes > arena->limit - arena->avail)` loop of
`malloc_arena`, with explicit fuel (`none` models divergence). -/
def malloc_loop : Nat → GState → Nat → Int → Option GState
  | 0, _, _, _ => none
  | fuel+1, s, a, nbytes =>
    match hget s.heap a with
    | none => none
    | some ar =>
      if nbytes > ar.limit - ar.avail then
        match acquire_chunk s a nbytes with
        | none => none
        | some s1 => malloc_loop fuel s1 a nbytes
      else some s

/-- The epilogue of `malloc_arena` after the acquisition loop:
`if (arena->prev) arena->prev->bytes = arena->bytes;
arena->bytes = nbytes; arena->avail += nbytes;
return arena->avail - nbytes;` (`nb` is the rounded request). -/
def malloc_finish (s1 : GState) (a : Nat) (nb : Int) : Option (Int × GState) :=
  match hget s1.heap a with
  | none => none
  | some ar =>
    let step : Option Heap :=
      if ar.prev = 0 then some s1.heap
      else match hget s1.heap ar.prev with
           | none => none
           | some pc => some (hset s1.heap ar.prev { pc with bytes := ar.bytes })
    match step with
    | none => none
    | some h1 =>
      match hget h1 a with
      | none => none
      | some ar1 =>
        some (ar1.avail,
          { s1 with heap := hset h1 a { ar1 with bytes := nb, avail := ar1.avail + nb } })

/-- Model of `malloc_arena`.  Asserts `arena != NULL` and `nbytes > 0`
(refusal = `none`), resets `num_free` to `0` when
`arena_capacity(arena) == arena_total(arena)`, rounds the request, runs the
acquisition loop, then finishes through `malloc_finish`. -/
def malloc_arena (s : GState) (a : Nat) (nbytes : Int) : Option (Int × GState) :=
  if a = 0 then none else
  if nbytes ≤ 0 then none else
  let s0 := if arena_capacity s a = arena_total s a then { s with numFree := 0 } else s
  let nb := roundUp nbytes
  match malloc_loop 64 s0 a nb with
  | none => none
  | some s1 => malloc_finish s1 a nb

/-- Model of `calloc_arena` without the byte-level `memset` (see
`calloc_arenaM` for the zeroing): asserts `count > 0` and delegates to
`malloc_arena(arena, count * nbytes)`. -/
def calloc_arena (s : GState) (a : Nat) (count nbytes : Int) : Option (Int × GState) :=
  if count ≤ 0 then none else malloc_arena s a (count * nbytes)

/-- The body of `arena_clear`'s `while (arena->prev && is_type(arena->prev,
RAII_ARENA))` loop, with fuel.  The push branch runs while
`num_free < THRESHOLD`; otherwise the current node is reset to span its
whole block.  `a` is the address of the node the loop variable `arena`
currently points to. -/
def clear_loop : Nat → GState → Nat → Option GState
  | 0, _, _ => none
  | fuel+1, s, a =>
    match hget s.heap a with
    | none => none
    | some ar =>
      if ar.prev = 0 then some s
      else
        match hget s.heap ar.prev with
        | none => none
        | some pc =>
          if pc.type ≠ RAII_ARENA then some s
          else
            let tmp := ar.prev
            if s.numFree < THRESHOLD then
              let h1 := hset s.heap tmp { pc with prev := s.freeList }
              let s1 : GState := { s with heap := h1, freeList := tmp, numFree := s.numFree + 1 }
              match hget s1.heap s1.freeList, hget s1.heap a with
              | some fc, some ar1 =>
                let delta := if fc.bytes = 0 then ar1.bytes else fc.bytes
                clear_loop fuel { s1 with heap := hset s1.heap a { ar1 with avail := ar1.avail - delta } } tmp
              | _, _ => none
            else
              let h2 := hset s.heap a
                { ar with avail := (ar.base : Int) + (headerSize : Int),
                          limit := (ar.base : Int) + ar.total, bytes := 0, prev := 0 }
              clear_loop fuel { s with heap := h2 } tmp

/-- Model of `arena_clear`: no-op on an empty handle, otherwise the
retire-chunks loop. -/
def arena_clear (s : GState) (a : Nat) : Option GState :=
  if a = 0 then some s else clear_loop 64 s a

/-- Length of the `free_list` chain, following `prev` links (fuel-bounded;
a dangling link or exhausted fuel stops the walk). -/
def freeChainLen (h : Heap) : Nat → Nat → Nat
  | _, 0 => 0
  | 0, _ => 0
  | a, fuel+1 =>
    match hget h a with
    | none => 0
    | some c => 1 + freeChainLen h c.prev fuel

/-- Number of chunks on the process-wide free list of a state. -/
def freeListLen (s : GState) : Nat := freeChainLen s.heap s.freeList (s.heap.length + 1)

/-- One call of the arena API, for describing executions as operation
sequences. -/
inductive ArenaOp where
  | init : ArenaOp
  | malloc : Nat → Int → ArenaOp
  | calloc : Nat → Int → Int → ArenaOp
  | clear : Nat → ArenaOp
  | free : Nat → ArenaOp
  deriving Repr, DecidableEq

/-- Effect of one API call on the process state. -/
def runOp (s : GState) : ArenaOp → Option GState
  | ArenaOp.init => some (arena_init s).2
  | ArenaOp.malloc a n => (malloc_arena s a n).map (fun p => p.2)
  | ArenaOp.calloc a c n => (calloc_arena s a c n).map (fun p => p.2)
  | ArenaOp.clear a => arena_clear s a
  | ArenaOp.free a => arena_free s a

/-- Effect of a sequence of API calls. -/
def runOps (s : GState) : List ArenaOp → Option GState
  | [] => some s
  | op :: ops =>
    match runOp s op with
    | none => none
    | some s1 => runOps s1 ops

/-- A state is reachable when some sequence of API calls produces it from
the initial process state. -/
def Reaches (s : GState) : Prop := ∃ ops, runOps initState ops = some s

/-- Byte-level view of `memset(p, 0, len)` over user memory contents. -/
def memsetZero (mem : Int → Nat) (start len : Int) : Int → Nat :=
  fun i => if start ≤ i ∧ i < start + len then 0 else mem i

/-- Process state extended with byte-addressable user-memory contents (the
arena model itself only reads `arena_s` headers, so the byte view matters
only for `calloc_arena`'s `memset`). -/
structure MState where
  gs : GState
  mem : Int → Nat

/-- Model of `calloc_arena` including its `memset(ptr, 0, count * nbytes)`
on the returned region. -/
def calloc_arenaM (ms : MState) (a : Nat) (count nbytes : Int) : Option (Int × MState) :=
  match calloc_arena ms.gs a count nbytes with
  | none => none
  | some (r, s2) => some (r, ⟨s2, memsetZero ms.mem r (count * nbytes)⟩)

/-- The built-in exception relevant to arena allocation failure. -/
inductive RaiiEx where
  | out_of_memory
  deriving Repr, DecidableEq

/-- System allocator with an explicit failure mode: `next` is the next
fresh address, `budget` how many more bytes the system can provide. -/
structure SysAlloc where
  next : Nat
  budget : Nat
  deriving Repr, DecidableEq

/-- Modelled from the spec: `try_malloc` (its code is not under `src/`)
obtains memory from the system allocator and raises the built-in
out-of-memory exception at the allocation site when the request cannot be
satisfied; on success it returns the fresh block, never `NULL`. -/
def try_malloc (st : SysAlloc) (size : Nat) : Except RaiiEx (Nat × SysAlloc) :=
  if size ≤ st.budget then Except.ok (st.next, ⟨st.next + size, st.budget - size⟩)
  else Except.error RaiiEx.out_of_memory

/-- Modelled from the spec: `try_realloc` (its code is not under `src/`)
grows a block, raising out-of-memory on system-allocator failure; on
success the (possibly moved) block is returned, never `NULL`. -/
def try_realloc (st : SysAlloc) (_oldBlock : Nat) (size : Nat) :
    Except RaiiEx (Nat × SysAlloc) :=
  if size ≤ st.budget then Except.ok (st.next, ⟨st.next + size, st.budget - size⟩)
  else Except.error RaiiEx.out_of_memory

/-- `arena_init` in the failure-aware model: `try_malloc(sizeof *arena)`
followed by field initialization.  An allocation failure propagates as the
out-of-memory exception; the function has no `NULL` or error-code result
channel. -/
def arena_initE (st : SysAlloc) (s : GState) : Except RaiiEx (Nat × SysAlloc × GState) :=
  match try_malloc st arenaStructSize with
  | Except.error e => Except.error e
  | Except.ok (p, st2) =>
    Except.ok (p, st2,
      { s with
        heap := hinsert s.heap p
          ⟨RAII_ARENA + RAII_STRUCT, 0, 0, 0, 0, 0, 0⟩,
        nextAddr := st2.next })

/-- The system-allocator growth branch of `malloc_arena`
(`m = sizeof(union header) + nbytes + THRESHOLD * 1024; arena->total += m;
ptr = try_realloc(arena->base, arena->total); arena->base = ptr;
limit = (char *)arena->base + arena->total`) in the failure-aware model,
acting on the handle's current contents.  `nbytes` is the rounded request.
A `try_realloc` failure propagates as the out-of-memory exception. -/
def malloc_growE (st : SysAlloc) (ar : ArenaS) (nbytes : Int) :
    Except RaiiEx (ArenaS × Int × SysAlloc) :=
  let m := (headerSize : Int) + nbytes + THRESHOLD * 1024
  let total2 := ar.total + m
  match try_realloc st ar.base total2.toNat with
  | Except.error e => Except.error e
  | Except.ok (p, st2) =>
    Except.ok ({ ar with total := total2, base := p }, (p : Int) + total2, st2)

/-- Modelled from the spec: the shim's generic-error return code (the header
defining the `thrd_*` codes is not under `src/`; the spec requires five
distinct values, modelled here with the conventional tinycthread values). -/
def thrd_error : Nat := 0

/-- Shim success return code; see `thrd_error`. -/
def thrd_success : Nat := 1

/-- Shim timeout return code; see `thrd_error`. -/
def thrd_timedout : Nat := 2

/-- Shim busy return code; see `thrd_error`. -/
def thrd_busy : Nat := 3

/-- Shim out-of-memory return code; see `thrd_error`. -/
def thrd_nomem : Nat := 4

/-- The `ETIMEDOUT` errno value (only its identity matters here). -/
def ETIMEDOUT : Nat := 110

/-- The `EBUSY` errno value (only its identity matters here). -/
def EBUSY : Nat := 16

/-- The POSIX-timeouts branch of `mtx_timedlock`: the `switch` mapping the
`pthread_mutex_timedlock` result (`0`, `ETIMEDOUT`, anything else) to the
shim's return codes. -/
def mtx_timedlock_posix (rc : Nat) : Nat :=
  if rc = 0 then thrd_success
  else if rc = ETIMEDOUT then thrd_timedout
  else thrd_error

/-- The final `switch (rc)` of `mtx_timedlock`'s trylock-retry fallback:
`0` maps to success, `ETIMEDOUT` and `EBUSY` to timeout, anything else to
the generic error. -/
def mtx_timedlock_finish (rc : Nat) : Nat :=
  if rc = 0 then thrd_success
  else if rc = ETIMEDOUT ∨ rc = EBUSY then thrd_timedout
  else thrd_error

/-- An absolute time as in `struct timespec`. -/
structure Timespec where
  sec : Int
  nsec : Int
  deriving Repr, DecidableEq

/-- The deadline test of the retry fallback:
`(cur.tv_sec > ts->tv_sec) || ((cur.tv_sec == ts->tv_sec) &&
(cur.tv_nsec >= ts->tv_nsec))`. -/
def tsReached (cur deadline : Timespec) : Bool :=
  deadline.sec < cur.sec ∨ (cur.sec = deadline.sec ∧ deadline.nsec ≤ cur.nsec)

/-- The trylock-retry fallback loop of `mtx_timedlock` (platforms without
`pthread_mutex_timedlock`).  Each environment event carries the
`pthread_mutex_trylock` result and the clock reading the loop would observe
after a failed attempt; the loop exits when trylock yields anything other
than `EBUSY`, or breaks with `rc = EBUSY` once the deadline has passed, and
maps the final `rc` through `mtx_timedlock_finish`.  `none` models an
exhausted event trace with the loop still spinning. -/
def mtx_timedlock_retry (deadline : Timespec) : List (Nat × Timespec) → Option Nat
  | [] => none
  | (rc, now) :: rest =>
    if rc = EBUSY then
      if tsReached now deadline then some (mtx_timedlock_finish EBUSY)
      else mtx_timedlock_retry deadline rest
    else some (mtx_timedlock_finish rc)

/-- The POSIX branch of `cnd_timedwait`: `ETIMEDOUT` from
`pthread_cond_timedwait` maps to the timeout code, `0` to success, anything
else to the generic error. -/
def cnd_timedwait_posix (rc : Nat) : Nat :=
  if rc = ETIMEDOUT then thrd_timedout
  else if rc = 0 then thrd_success
  else thrd_error

/-! ## Basic heap lemmas -/

theorem hget_hset_ne (h : Heap) (a b : Nat) (v : ArenaS) (hne : b ≠ a) :
    hget (hset h a v) b = hget h b := by
  induction h with
  | nil => rfl
  | cons p t ih =>
    show hget (if p.1 = a then (a, v) :: t else p :: hset t a v) b = hget (p :: t) b
    by_cases hp : p.1 = a
    · rw [if_pos hp]
      show (if a = b then some v else hget t b) = (if p.1 = b then some p.2 else hget t b)
      rw [if_neg (by omega : ¬ a = b), if_neg (by omega : ¬ p.1 = b)]
    · rw [if_neg hp]
      show (if p.1 = b then some p.2 else hget (hset t a v) b)
          = (if p.1 = b then some p.2 else hget t b)
      by_cases hb : p.1 = b
      · rw [if_pos hb, if_pos hb]
      · rw [if_neg hb, if_neg hb]
        exact ih

theorem hget_hset_eq (h : Heap) (a : Nat) (v w : ArenaS) (hw : hget h a = some w) :
    hget (hset h a v) a = some v := by
  induction h with
  | nil => simp [hget] at hw
  | cons p t ih =>
    show hget (if p.1 = a then (a, v) :: t else p :: hset t a v) a = some v
    by_cases hp : p.1 = a
    · rw [if_pos hp]
      show (if a = a then some v else hget t a) = some v
      rw [if_pos rfl]
    · rw [if_neg hp]
      show (if p.1 = a then some p.2 else hget (hset t a v) a) = some v
      rw [if_neg hp]
      have hw2 : hget t a = some w := by
        have : hget (p :: t) a = if p.1 = a then some p.2 else hget t a := rfl
        rw [this, if_neg hp] at hw
        exact hw
      exact ih hw2

theorem keys_hset (h : Heap) (a : Nat) (v : ArenaS) :
    (hset h a v).map Prod.fst = h.map Prod.fst := by
  induction h with
  | nil => rfl
  | cons p t ih =>
    unfold hset
    by_cases hp : p.1 = a
    · rw [if_pos hp]
      simp [hp]
    · rw [if_neg hp]
      simp [ih]

/-! ## Claim theorems: guards and simple operations -/

/-- C7: `malloc_arena` with a zero-byte request is a defined refusal — the
`RAII_ASSERT(nbytes > 0)` precondition rejects the call before any state is
read or written, so the arena's `base ≤ avail ≤ limit` invariant and all
previously returned allocations are untouched (the refusal produces no new
state at all). -/
theorem c7_malloc_zero_refusal : ∀ (s : GState) (a : Nat), malloc_arena s a 0 = none := by
  intro s a
  unfold malloc_arena
  by_cases h : a = 0
  · rw [if_pos h]
  · rw [if_neg h, if_pos (by omega : (0 : Int) ≤ 0)]

/-- C10: queries on an empty (`NULL`) handle or a handle whose tag is not
`RAII_ARENA + RAII_STRUCT` return `0` no matter what the chunk pointers
contain, and `arena_free`/`arena_clear` on an empty handle are no-ops that
return the state unchanged. -/
theorem c10_empty_and_foreign_handles :
    (∀ s : GState, arena_capacity s 0 = 0 ∧ arena_total s 0 = 0 ∧
      arena_free s 0 = some s ∧ arena_clear s 0 = some s) ∧
    (∀ (s : GState) (a : Nat) (h : ArenaS), hget s.heap a = some h →
      h.type ≠ RAII_ARENA + RAII_STRUCT →
      arena_capacity s a = 0 ∧ arena_total s a = 0) := by
  constructor
  · intro s
    refine ⟨rfl, rfl, ?_, ?_⟩
    · unfold arena_free
      rw [if_pos rfl]
    · unfold arena_clear
      rw [if_pos rfl]
  · intro s a h hh ht
    constructor
    · unfold arena_capacity
      by_cases h0 : a = 0
      · rw [if_pos h0]
      · rw [if_neg h0, hh]
        exact if_neg ht
    · unfold arena_total
      by_cases h0 : a = 0
      · rw [if_pos h0]
      · rw [if_neg h0, hh]
        exact if_neg ht

/-- Closed instance of `c10_empty_and_foreign_handles` at a concrete state
holding one block whose tag is not the arena tag. -/
theorem c10_empty_and_foreign_handles_witness :
    hget (GState.mk [(5, junkArena)] 0 0 6).heap 5 = some junkArena ∧
    junkArena.type ≠ RAII_ARENA + RAII_STRUCT ∧
    arena_capacity (GState.mk [(5, junkArena)] 0 0 6) 5 = 0 ∧
    arena_total (GState.mk [(5, junkArena)] 0 0 6) 5 = 0 := by
  refine ⟨by decide, by decide, ?_, ?_⟩
  · exact (c10_empty_and_foreign_handles.2 (GState.mk [(5, junkArena)] 0 0 6) 5 junkArena
      (by decide) (by decide)).1
  · exact (c10_empty_and_foreign_handles.2 (GState.mk [(5, junkArena)] 0 0 6) 5 junkArena
      (by decide) (by decide)).2

/-- C8: the deadline-based waits surface expiry as the distinct timeout
status: the POSIX branches of `mtx_timedlock` and `cnd_timedwait` map
`ETIMEDOUT` to `thrd_timedout`; the trylock-retry fallback returns
`thrd_timedout` whenever the mutex is never acquired (every trylock yields
`EBUSY`) and the clock passes the absolute deadline; and `thrd_timedout`
differs from the success, busy, out-of-memory and generic-error codes. -/
theorem c8_timedout_distinct :
    (mtx_timedlock_posix ETIMEDOUT = thrd_timedout ∧
     cnd_timedwait_posix ETIMEDOUT = thrd_timedout) ∧
    (∀ (deadline : Timespec) (evs : List (Nat × Timespec)),
      (∀ p ∈ evs, p.1 = EBUSY) →
      (∃ p ∈ evs, tsReached p.2 deadline = true) →
      mtx_timedlock_retry deadline evs = some thrd_timedout) ∧
    (thrd_timedout ≠ thrd_success ∧ thrd_timedout ≠ thrd_busy ∧
     thrd_timedout ≠ thrd_nomem ∧ thrd_timedout ≠ thrd_error) := by
  refine ⟨⟨by decide, by decide⟩, ?_, by decide⟩
  intro dl evs hall hex
  induction evs with
  | nil => simp at hex
  | cons hd tl ih =>
    obtain ⟨rc, now⟩ := hd
    have hrc : rc = EBUSY := hall (rc, now) (List.mem_cons_self _ _)
    subst hrc
    unfold mtx_timedlock_retry
    rw [if_pos rfl]
    by_cases hr : tsReached now dl = true
    · rw [if_pos hr]
      decide
    · rw [if_neg hr]
      apply ih
      · intro p hp
        exact hall p (List.mem_cons_of_mem _ hp)
      · rcases hex with ⟨p, hp, hpr⟩
        rcases List.mem_cons.mp hp with heq | hm
        · rw [heq] at hpr
          exact absurd hpr hr
        · exact ⟨p, hm, hpr⟩

/-- Closed instance of `c8_timedout_distinct`: a deadline of 10 s, one busy
attempt before the deadline and one after it. -/
theorem c8_timedout_distinct_witness :
    (∀ p ∈ [(EBUSY, Timespec.mk 5 0), (EBUSY, Timespec.mk 11 0)], p.1 = EBUSY) ∧
    (∃ p ∈ [(EBUSY, Timespec.mk 5 0), (EBUSY, Timespec.mk 11 0)],
      tsReached p.2 (Timespec.mk 10 0) = true) ∧
    mtx_timedlock_retry (Timespec.mk 10 0)
      [(EBUSY, Timespec.mk 5 0), (EBUSY, Timespec.mk 11 0)] = some thrd_timedout := by
  refine ⟨by decide, ⟨(EBUSY, Timespec.mk 11 0), by decide, by decide⟩, ?_⟩
  exact c8_timedout_distinct.2.1 (Timespec.mk 10 0)
    [(EBUSY, Timespec.mk 5 0), (EBUSY, Timespec.mk 11 0)] (by decide)
    ⟨(EBUSY, Timespec.mk 11 0), by decide, by decide⟩

/-- C6: an allocation failure during arena creation or arena growth is the
out-of-memory exception at the allocation site, never a `NULL` result and
never an error code: `arena_initE` propagates `try_malloc`'s exception and
otherwise returns a non-null handle, and the growth branch of
`malloc_arena` propagates `try_realloc`'s exception. -/
theorem c6_oom_propagates :
    (∀ (st : SysAlloc) (s : GState), st.budget < arenaStructSize →
      arena_initE st s = Except.error RaiiEx.out_of_memory) ∧
    (∀ (st : SysAlloc) (s : GState) (p : Nat) (st2 : SysAlloc) (s2 : GState),
      0 < st.next → arena_initE st s = Except.ok (p, st2, s2) → p ≠ 0) ∧
    (∀ (st : SysAlloc) (ar : ArenaS) (n : Int),
      st.budget < (ar.total + ((headerSize : Int) + n + THRESHOLD * 1024)).toNat →
      malloc_growE st ar n = Except.error RaiiEx.out_of_memory) := by
  refine ⟨?_, ?_, ?_⟩
  · intro st s hb
    unfold arena_initE try_malloc
    rw [if_neg (by omega : ¬ arenaStructSize ≤ st.budget)]
  · intro st s p st2 s2 hn hok
    unfold arena_initE try_malloc at hok
    by_cases hb : arenaStructSize ≤ st.budget
    · rw [if_pos hb] at hok
      simp only [Except.ok.injEq, Prod.mk.injEq] at hok
      omega
    · rw [if_neg hb] at hok
      exact absurd hok (by simp)
  · intro st ar n hb
    unfold malloc_growE try_realloc
    dsimp only
    rw [if_neg (by omega : ¬ (ar.total + ((headerSize : Int) + n + THRESHOLD * 1024)).toNat ≤ st.budget)]

/-- Closed instance of `c6_oom_propagates` at concrete allocator states. -/
theorem c6_oom_propagates_witness :
    (SysAlloc.mk 1 10).budget < arenaStructSize ∧
    arena_initE (SysAlloc.mk 1 10) initState = Except.error RaiiEx.out_of_memory ∧
    (0 : Nat) < (SysAlloc.mk 1 100).next ∧
    (∀ (p : Nat) (st2 : SysAlloc) (s2 : GState),
      arena_initE (SysAlloc.mk 1 100) initState = Except.ok (p, st2, s2) → p ≠ 0) ∧
    (SysAlloc.mk 1 100).budget < (junkArena.total + ((headerSize : Int) + 16 + THRESHOLD * 1024)).toNat ∧
    malloc_growE (SysAlloc.mk 1 100) junkArena 16 = Except.error RaiiEx.out_of_memory := by
  refine ⟨by decide, c6_oom_propagates.1 (SysAlloc.mk 1 10) initState (by decide),
    by decide, ?_, by decide,
    c6_oom_propagates.2.2 (SysAlloc.mk 1 100) junkArena 16 (by decide)⟩
  intro p st2 s2 hok
  exact c6_oom_propagates.2.1 (SysAlloc.mk 1 100) initState p st2 s2 (by decide) hok

/-- C9: when the underlying `malloc_arena` call succeeds, `calloc_arena`
returns a region of `count * nbytes` bytes in which every byte is zero
(the `memset(ptr, 0, count * nbytes)` covers exactly the returned region). -/
theorem c9_calloc_zero_region :
    ∀ (ms : MState) (a : Nat) (count nbytes r : Int) (ms2 : MState),
      calloc_arenaM ms a count nbytes = some (r, ms2) →
      ∀ i : Int, r ≤ i → i < r + count * nbytes → ms2.mem i = 0 := by
  intro ms a c n r ms2 hc i h1 h2
  unfold calloc_arenaM at hc
  cases hcc : calloc_arena ms.gs a c n with
  | none =>
    rw [hcc] at hc
    exact absurd hc (by simp)
  | some p =>
    obtain ⟨p1, p2⟩ := p
    rw [hcc] at hc
    simp only [Option.some.injEq, Prod.mk.injEq] at hc
    obtain ⟨hr, hms⟩ := hc
    rw [← hms]
    show memsetZero ms.mem p1 (c * n) i = 0
    rw [← hr] at h1 h2
    unfold memsetZero
    rw [if_pos ⟨h1, h2⟩]

/-- Closed instance of `c9_calloc_zero_region`: `calloc_arena(a, 2, 8)` on a
freshly initialized arena; byte 80 of the returned 16-byte region is zero. -/
theorem c9_calloc_zero_region_witness :
    calloc_arenaM
        (MState.mk (GState.mk [(1, ArenaS.mk 3 0 0 0 0 0 0)] 0 0 57) (fun _ => 7)) 1 2 8
      = some (73, MState.mk
          (GState.mk [(57, ArenaS.mk 1 0 0 0 57 0 10272),
            (1, ArenaS.mk 3 57 89 10329 57 16 10272)] 0 0 10329)
          (memsetZero (fun _ => 7) 73 (2 * 8))) ∧
    (73 : Int) ≤ 80 ∧ (80 : Int) < 73 + 2 * 8 ∧
    (MState.mk
        (GState.mk [(57, ArenaS.mk 1 0 0 0 57 0 10272),
          (1, ArenaS.mk 3 57 89 10329 57 16 10272)] 0 0 10329)
        (memsetZero (fun _ => 7) 73 (2 * 8))).mem 80 = 0 :=
  ⟨rfl, by decide, by decide,
    c9_calloc_zero_region
      (MState.mk (GState.mk [(1, ArenaS.mk 3 0 0 0 0 0 0)] 0 0 57) (fun _ => 7))
      1 2 8 73 _ rfl 80 (by decide) (by decide)⟩

/-! ## Counterexample traces -/

/-- C1 counterexample: after the legal call sequence `a1 = arena_init();
malloc_arena(a1, 8); arena_clear(a1); a2 = arena_init();
malloc_arena(a2, 8)` the global counter `num_free` is `-1` while the
`free_list` chain is empty — `malloc_arena`'s `num_free = 0` reset (taken
whenever `arena_capacity == arena_total`, as on the fresh arena `a2`)
desynchronizes the counter from the chain, so the counter does not always
equal the length of the chain. -/
theorem c1_counterexample :
    runOps initState [ArenaOp.init, ArenaOp.malloc 1 8, ArenaOp.clear 1,
        ArenaOp.init, ArenaOp.malloc 10329 8] =
      some (GState.mk
        [(10385, ArenaS.mk 1 57 73 0 10385 0 10272),
         (10329, ArenaS.mk 3 10385 10417 20657 10385 16 10272),
         (57, ArenaS.mk 1 0 0 0 0 0 0),
         (1, ArenaS.mk 3 57 73 10329 57 16 10272)] 0 (-1) 20657) ∧
    ((-1 : Int) ≠ (freeListLen (GState.mk
        [(10385, ArenaS.mk 1 57 73 0 10385 0 10272),
         (10329, ArenaS.mk 3 10385 10417 20657 10385 16 10272),
         (57, ArenaS.mk 1 0 0 0 0 0 0),
         (1, ArenaS.mk 3 57 73 10329 57 16 10272)] 0 (-1) 20657) : Int)) := by
  exact ⟨rfl, by decide⟩

/-- C2 counterexample: a state `s4` (reached by `arena_init`,
`malloc_arena(•, 17)` and two `arena_clear` calls) in which the counter
`num_free` equals `THRESHOLD` and the arena still holds a retired chunk (at
address 57, tagged `RAII_ARENA`); the next `arena_clear` call therefore
takes the overflow branch, yet the chunk's block remains allocated: the
set of live blocks and the system allocator's fresh-address counter are
unchanged, so the overflow chunk is not returned to the system allocator
(it is re-absorbed by the arena instead). -/
theorem c2_counterexample :
    runOps initState [ArenaOp.init, ArenaOp.malloc 1 17, ArenaOp.clear 1,
        ArenaOp.clear 1] =
      some (GState.mk
        [(57, ArenaS.mk 1 0 73 10345 57 0 10288),
         (1, ArenaS.mk 3 57 41 10345 57 32 10288)] 57 10 10345) ∧
    (GState.mk [(57, ArenaS.mk 1 0 73 10345 57 0 10288),
        (1, ArenaS.mk 3 57 41 10345 57 32 10288)] 57 10 10345).numFree = THRESHOLD ∧
    (hget [(57, ArenaS.mk 1 0 73 10345 57 0 10288),
        (1, ArenaS.mk 3 57 41 10345 57 32 10288)] 1).map ArenaS.prev = some 57 ∧
    (hget [(57, ArenaS.mk 1 0 73 10345 57 0 10288),
        (1, ArenaS.mk 3 57 41 10345 57 32 10288)] 57).map ArenaS.type = some RAII_ARENA ∧
    arena_clear (GState.mk [(57, ArenaS.mk 1 0 73 10345 57 0 10288),
        (1, ArenaS.mk 3 57 41 10345 57 32 10288)] 57 10 10345) 1 =
      some (GState.mk [(57, ArenaS.mk 1 0 73 10345 57 0 10288),
        (1, ArenaS.mk 3 0 73 10345 57 0 10288)] 57 10 10345) ∧
    hget [(57, ArenaS.mk 1 0 73 10345 57 0 10288),
        (1, ArenaS.mk 3 0 73 10345 57 0 10288)] 57 ≠ none := by
  exact ⟨rfl, by decide, by decide, by decide, rfl, by decide⟩

/-- C3 failing input: after `a = arena_init(); malloc_arena(a, 17);
arena_clear(a)` the handle satisfies `base ≤ avail ≤ limit`, but a second
(equally legal) `arena_clear(a)` call — the handle's `prev` still points at
the chunk that is already on the free list — drives `avail` below `base`
(`avail = 41 < 57 = base`), breaking the chunk invariant every operation is
supposed to preserve. -/
theorem c3_invariant_broken :
    runOps initState [ArenaOp.init, ArenaOp.malloc 1 17, ArenaOp.clear 1] =
      some (GState.mk
        [(57, ArenaS.mk 1 0 0 0 57 0 10288),
         (1, ArenaS.mk 3 57 73 10345 57 32 10288)] 57 1 10345) ∧
    hget [(57, ArenaS.mk 1 0 0 0 57 0 10288),
        (1, ArenaS.mk 3 57 73 10345 57 32 10288)] 1 =
      some (ArenaS.mk 3 57 73 10345 57 32 10288) ∧
    ((57 : Int) ≤ 73 ∧ (73 : Int) ≤ 10345) ∧
    arena_clear (GState.mk
        [(57, ArenaS.mk 1 0 0 0 57 0 10288),
         (1, ArenaS.mk 3 57 73 10345 57 32 10288)] 57 1 10345) 1 =
      some (GState.mk
        [(57, ArenaS.mk 1 0 73 10345 57 0 10288),
         (1, ArenaS.mk 3 57 41 10345 57 32 10288)] 57 10 10345) ∧
    hget [(57, ArenaS.mk 1 0 73 10345 57 0 10288),
        (1, ArenaS.mk 3 57 41 10345 57 32 10288)] 1 =
      some (ArenaS.mk 3 57 41 10345 57 32 10288) ∧
    (41 : Int) < (57 : Int) := by
  exact ⟨rfl, by decide, by decide, rfl, by decide, by decide⟩

/-- C5 counterexample: two 16-byte allocations from a fresh arena followed
by `arena_clear` (the clear only rolls `avail` back by the size of the
most recent allocation), after which `arena_capacity` is `10240` while
`arena_total` is `10256`. -/
theorem c5_counterexample :
    runOps initState [ArenaOp.init, ArenaOp.malloc 1 16, ArenaOp.malloc 1 16,
        ArenaOp.clear 1] =
      some (GState.mk
        [(57, ArenaS.mk 1 0 0 0 57 16 10272),
         (1, ArenaS.mk 3 57 89 10329 57 16 10272)] 57 1 10329) ∧
    arena_capacity (GState.mk
        [(57, ArenaS.mk 1 0 0 0 57 16 10272),
         (1, ArenaS.mk 3 57 89 10329 57 16 10272)] 57 1 10329) 1 ≠
      arena_total (GState.mk
        [(57, ArenaS.mk 1 0 0 0 57 16 10272),
         (1, ArenaS.mk 3 57 89 10329 57 16 10272)] 57 1 10329) 1 := by
  exact ⟨rfl, by decide⟩

/-! ## Structural lemmas about the loops -/

theorem clear_loop_frees_nothing :
    ∀ (fuel : Nat) (s : GState) (a : Nat) (s2 : GState),
      clear_loop fuel s a = some s2 →
      s2.heap.map Prod.fst = s.heap.map Prod.fst ∧ s2.nextAddr = s.nextAddr := by
  intro fuel
  induction fuel with
  | zero =>
    intro s a s2 h
    exact absurd h (by simp [clear_loop])
  | succ n ih =>
    intro s a s2 h
    unfold clear_loop at h
    split at h
    · exact absurd h (by simp)
    · rename_i ar har
      split at h
      · injection h with h
        subst h
        exact ⟨rfl, rfl⟩
      · split at h
        · exact absurd h (by simp)
        · rename_i pc hpc
          split at h
          · injection h with h
            subst h
            exact ⟨rfl, rfl⟩
          · split at h
            · dsimp only at h
              split at h
              · rename_i fc ar1 hfc har1
                obtain ⟨k1, k2⟩ := ih _ _ _ h
                rw [keys_hset, keys_hset] at k1
                exact ⟨k1, k2⟩
              · exact absurd h (by simp)
            · dsimp only at h
              obtain ⟨k1, k2⟩ := ih _ _ _ h
              rw [keys_hset] at k1
              exact ⟨k1, k2⟩

theorem installChunk_globals :
    ∀ (s : GState) (a p : Nat) (l : Int) (s2 : GState),
      installChunk s a p l = some s2 →
      s2.freeList = s.freeList ∧ s2.numFree = s.numFree ∧ s2.nextAddr = s.nextAddr := by
  intro s a p l s2 h
  unfold installChunk at h
  split at h
  · exact absurd h (by simp)
  · dsimp only at h
    split at h
    · exact absurd h (by simp)
    · split at h
      · exact absurd h (by simp)
      · injection h with h
        subst h
        exact ⟨rfl, rfl, rfl⟩

theorem acquire_chunk_numFree :
    ∀ (s : GState) (a : Nat) (nb : Int) (s2 : GState),
      acquire_chunk s a nb = some s2 →
      s2.numFree = s.numFree - 1 ∨ s2.numFree = s.numFree := by
  intro s a nb s2 h
  unfold acquire_chunk at h
  split at h
  · split at h
    · exact absurd h (by simp)
    · left
      exact (installChunk_globals _ _ _ _ _ h).2.1
  · split at h
    · exact absurd h (by simp)
    · dsimp only at h
      split at h
      · exact absurd h (by simp)
      · right
        exact (installChunk_globals _ _ _ _ _ h).2.1

theorem malloc_loop_numFree :
    ∀ (fuel : Nat) (s : GState) (a : Nat) (nb : Int) (s2 : GState),
      malloc_loop fuel s a nb = some s2 → s2.numFree ≤ s.numFree := by
  intro fuel
  induction fuel with
  | zero =>
    intro s a nb s2 h
    exact absurd h (by simp [malloc_loop])
  | succ n ih =>
    intro s a nb s2 h
    unfold malloc_loop at h
    split at h
    · exact absurd h (by simp)
    · split at h
      · split at h
        · exact absurd h (by simp)
        · rename_i s1 hs1
          have h2 := ih _ _ _ _ h
          rcases acquire_chunk_numFree _ _ _ _ hs1 with he | he <;> omega
      · injection h with h
        subst h
        exact le_refl _

theorem malloc_finish_globals :
    ∀ (s1 : GState) (a : Nat) (nb r : Int) (s2 : GState),
      malloc_finish s1 a nb = some (r, s2) →
      s2.freeList = s1.freeList ∧ s2.numFree = s1.numFree ∧ s2.nextAddr = s1.nextAddr := by
  intro s1 a nb r s2 h
  unfold malloc_finish at h
  split at h
  · exact absurd h (by simp)
  · dsimp only at h
    split at h
    · exact absurd h (by simp)
    · split at h
      · exact absurd h (by simp)
      · injection h with h
        have h2 := congrArg Prod.snd h
        dsimp only at h2
        rw [← h2]
        exact ⟨rfl, rfl, rfl⟩

theorem malloc_arena_numFree :
    ∀ (s : GState) (a : Nat) (nbytes r : Int) (s2 : GState),
      malloc_arena s a nbytes = some (r, s2) → s.numFree ≤ THRESHOLD →
      s2.numFree ≤ THRESHOLD := by
  intro s a nbytes r s2 h hle
  unfold malloc_arena at h
  split at h
  · exact absurd h (by simp)
  · split at h
    · exact absurd h (by simp)
    · dsimp only at h
      split at h
      · exact absurd h (by simp)
      · rename_i s1 hs1
        have h2 : s2.numFree = s1.numFree := (malloc_finish_globals _ _ _ _ _ h).2.1
        have h3 : s1.numFree ≤ (if arena_capacity s a = arena_total s a then
            { s with numFree := 0 } else s).numFree := malloc_loop_numFree _ _ _ _ _ hs1
        by_cases hc : arena_capacity s a = arena_total s a
        · rw [if_pos hc] at h3
          simp only at h3
          unfold THRESHOLD
          omega
        · rw [if_neg hc] at h3
          unfold THRESHOLD at *
          omega

theorem clear_loop_numFree :
    ∀ (fuel : Nat) (s : GState) (a : Nat) (s2 : GState),
      clear_loop fuel s a = some s2 → s.numFree ≤ THRESHOLD →
      s2.numFree ≤ THRESHOLD := by
  intro fuel
  induction fuel with
  | zero =>
    intro s a s2 h _
    exact absurd h (by simp [clear_loop])
  | succ n ih =>
    intro s a s2 h hle
    unfold clear_loop at h
    split at h
    · exact absurd h (by simp)
    · split at h
      · injection h with h
        subst h
        exact hle
      · split at h
        · exact absurd h (by simp)
        · split at h
          · injection h with h
            subst h
            exact hle
          · split at h
            · rename_i hlt
              dsimp only at h
              split at h
              · refine ih _ _ _ h ?_
                simp only
                unfold THRESHOLD at *
                omega
              · exact absurd h (by simp)
            · dsimp only at h
              exact ih _ _ _ h hle

theorem runOp_numFree :
    ∀ (s : GState) (op : ArenaOp) (s2 : GState),
      runOp s op = some s2 → s.numFree ≤ THRESHOLD → s2.numFree ≤ THRESHOLD := by
  intro s op s2 h hle
  cases op with
  | init =>
    injection h with h
    subst h
    exact hle
  | malloc a n =>
    simp only [runOp] at h
    cases hm : malloc_arena s a n with
    | none =>
      rw [hm] at h
      exact absurd h (by simp)
    | some p =>
      rw [hm] at h
      obtain ⟨r, s1⟩ := p
      injection h with h
      subst h
      exact malloc_arena_numFree _ _ _ _ _ hm hle
  | calloc a c n =>
    simp only [runOp, calloc_arena] at h
    by_cases hc : c ≤ 0
    · rw [if_pos hc] at h
      exact absurd h (by simp)
    · rw [if_neg hc] at h
      cases hm : malloc_arena s a (c * n) with
      | none =>
        rw [hm] at h
        exact absurd h (by simp)
      | some p =>
        rw [hm] at h
        obtain ⟨r, s1⟩ := p
        injection h with h
        subst h
        exact malloc_arena_numFree _ _ _ _ _ hm hle
  | clear a =>
    simp only [runOp, arena_clear] at h
    by_cases h0 : a = 0
    · rw [if_pos h0] at h
      injection h with h
      subst h
      exact hle
    · rw [if_neg h0] at h
      exact clear_loop_numFree _ _ _ _ h hle
  | free a =>
    simp only [runOp, arena_free] at h
    by_cases h0 : a = 0
    · rw [if_pos h0] at h
      injection h with h
      subst h
      exact hle
    · rw [if_neg h0] at h
      split at h
      · exact absurd h (by simp)
      · split at h
        · injection h with h
          subst h
          exact hle
        · injection h with h
          subst h
          exact hle

theorem runOps_numFree :
    ∀ (ops : List ArenaOp) (s s2 : GState),
      runOps s ops = some s2 → s.numFree ≤ THRESHOLD → s2.numFree ≤ THRESHOLD := by
  intro ops
  induction ops with
  | nil =>
    intro s s2 h hle
    injection h with h
    subst h
    exact hle
  | cons op rest ih =>
    intro s s2 h hle
    unfold runOps at h
    split at h
    · exact absurd h (by simp)
    · rename_i s1 hs1
      exact ih _ _ h (runOp_numFree _ _ _ hs1 hle)

/-- C1 amended: in every reachable state the counter `num_free` is at most
`THRESHOLD` — `arena_clear` pushes onto the free list only while
`num_free < THRESHOLD` and every other operation only decreases or resets
the counter.  (The original claim's further assertions fail: the counter
can drift from the actual chain length, see the counterexample.) -/
theorem c1_amended_numFree_bounded :
    ∀ s : GState, Reaches s → s.numFree ≤ THRESHOLD := by
  intro s hs
  obtain ⟨ops, h⟩ := hs
  exact runOps_numFree ops initState s h (by decide)

/-- Closed instance of `c1_amended_numFree_bounded` on the state reached by
a single `arena_init`. -/
theorem c1_amended_numFree_bounded_witness :
    Reaches (GState.mk [(1, ArenaS.mk 3 0 0 0 0 0 0)] 0 0 57) ∧
    (GState.mk [(1, ArenaS.mk 3 0 0 0 0 0 0)] 0 0 57).numFree ≤ THRESHOLD :=
  ⟨⟨[ArenaOp.init], rfl⟩,
    c1_amended_numFree_bounded (GState.mk [(1, ArenaS.mk 3 0 0 0 0 0 0)] 0 0 57)
      ⟨[ArenaOp.init], rfl⟩⟩

/-- C2 amended: `arena_clear` never returns memory to the system allocator —
it frees no block (the set of live block addresses is unchanged) and
requests nothing new (the allocator's fresh-address counter is unchanged);
chunks beyond the `THRESHOLD` cap are re-absorbed by resetting the arena to
span its whole block.  Memory returns to the system only via `arena_free`. -/
theorem c2_amended_clear_frees_nothing :
    ∀ (s : GState) (a : Nat) (s2 : GState), arena_clear s a = some s2 →
      s2.heap.map Prod.fst = s.heap.map Prod.fst ∧ s2.nextAddr = s.nextAddr := by
  intro s a s2 h
  unfold arena_clear at h
  by_cases h0 : a = 0
  · rw [if_pos h0] at h
    injection h with h
    subst h
    exact ⟨rfl, rfl⟩
  · rw [if_neg h0] at h
    exact clear_loop_frees_nothing 64 s a s2 h

/-- Closed instance of `c2_amended_clear_frees_nothing` on the overflow
state of the C2 counterexample (`num_free = THRESHOLD`). -/
theorem c2_amended_clear_frees_nothing_witness :
    arena_clear (GState.mk [(57, ArenaS.mk 1 0 73 10345 57 0 10288),
        (1, ArenaS.mk 3 57 41 10345 57 32 10288)] 57 10 10345) 1 =
      some (GState.mk [(57, ArenaS.mk 1 0 73 10345 57 0 10288),
        (1, ArenaS.mk 3 0 73 10345 57 0 10288)] 57 10 10345) ∧
    (GState.mk [(57, ArenaS.mk 1 0 73 10345 57 0 10288),
        (1, ArenaS.mk 3 0 73 10345 57 0 10288)] 57 10 10345).heap.map Prod.fst =
      (GState.mk [(57, ArenaS.mk 1 0 73 10345 57 0 10288),
        (1, ArenaS.mk 3 57 41 10345 57 32 10288)] 57 10 10345).heap.map Prod.fst ∧
    (GState.mk [(57, ArenaS.mk 1 0 73 10345 57 0 10288),
        (1, ArenaS.mk 3 0 73 10345 57 0 10288)] 57 10 10345).nextAddr =
      (GState.mk [(57, ArenaS.mk 1 0 73 10345 57 0 10288),
        (1, ArenaS.mk 3 57 41 10345 57 32 10288)] 57 10 10345).nextAddr :=
  ⟨rfl,
    (c2_amended_clear_frees_nothing (GState.mk [(57, ArenaS.mk 1 0 73 10345 57 0 10288),
        (1, ArenaS.mk 3 57 41 10345 57 32 10288)] 57 10 10345) 1 (GState.mk [(57, ArenaS.mk 1 0 73 10345 57 0 10288),
        (1, ArenaS.mk 3 0 73 10345 57 0 10288)] 57 10 10345) rfl).1,
    (c2_amended_clear_frees_nothing (GState.mk [(57, ArenaS.mk 1 0 73 10345 57 0 10288),
        (1, ArenaS.mk 3 57 41 10345 57 32 10288)] 57 10 10345) 1 (GState.mk [(57, ArenaS.mk 1 0 73 10345 57 0 10288),
        (1, ArenaS.mk 3 0 73 10345 57 0 10288)] 57 10 10345) rfl).2⟩

/-! ## Characterization of the allocation paths (for C4) -/

theorem hget_hdel_self (h : Heap) (a : Nat) : hget (hdel h a) a = none := by
  induction h with
  | nil => rfl
  | cons p t ih =>
    show hget (if p.1 = a then hdel t a else p :: hdel t a) a = none
    by_cases hp : p.1 = a
    · rw [if_pos hp]
      exact ih
    · rw [if_neg hp]
      show (if p.1 = a then some p.2 else hget (hdel t a) a) = none
      rw [if_neg hp]
      exact ih

theorem hget_hdel_ne (h : Heap) (a b : Nat) (hne : b ≠ a) :
    hget (hdel h a) b = hget h b := by
  induction h with
  | nil => rfl
  | cons p t ih =>
    show hget (if p.1 = a then hdel t a else p :: hdel t a) b = hget (p :: t) b
    by_cases hp : p.1 = a
    · rw [if_pos hp]
      show hget (hdel t a) b = (if p.1 = b then some p.2 else hget t b)
      rw [if_neg (by omega : ¬ p.1 = b)]
      exact ih
    · rw [if_neg hp]
      show (if p.1 = b then some p.2 else hget (hdel t a) b)
          = (if p.1 = b then some p.2 else hget t b)
      by_cases hb : p.1 = b
      · rw [if_pos hb, if_pos hb]
      · rw [if_neg hb, if_neg hb]
        exact ih

theorem hget_cons_self (t : Heap) (p : Nat) (v : ArenaS) :
    hget ((p, v) :: t) p = some v := by
  show (if p = p then some v else hget t p) = some v
  rw [if_pos rfl]

theorem malloc_loop_fit (fuel : Nat) (s : GState) (a : Nat) (nb : Int) (ar : ArenaS)
    (har : hget s.heap a = some ar) (hfit : ¬ (nb > ar.limit - ar.avail)) :
    malloc_loop (fuel + 1) s a nb = some s := by
  unfold malloc_loop
  rw [har]
  exact if_neg hfit

theorem malloc_finish_spec (s1 : GState) (a : Nat) (nb r : Int) (s2 : GState) (ar : ArenaS)
    (har : hget s1.heap a = some ar) (h : malloc_finish s1 a nb = some (r, s2)) :
    r = ar.avail ∧
    hget s2.heap a = some { ar with bytes := nb, avail := ar.avail + nb } := by
  unfold malloc_finish at h
  rw [har] at h
  dsimp only at h
  by_cases hp : ar.prev = 0
  · rw [if_pos hp] at h
    dsimp only at h
    rw [har] at h
    injection h with h
    have hr := congrArg Prod.fst h
    have hs := congrArg Prod.snd h
    dsimp only at hr hs
    refine ⟨hr.symm, ?_⟩
    rw [← hs]
    exact hget_hset_eq _ _ _ _ har
  · rw [if_neg hp] at h
    cases hpc : hget s1.heap ar.prev with
    | none =>
      rw [hpc] at h
      exact absurd h (by simp)
    | some pc =>
      rw [hpc] at h
      dsimp only at h
      by_cases hap : a = ar.prev
      · have hpcar : pc = ar := by
          rw [← hap] at hpc
          exact Option.some.inj (hpc.symm.trans har)
        rw [hpcar] at h
        have hv : ({ ar with bytes := ar.bytes } : ArenaS) = ar := rfl
        rw [hv] at h
        have e1 : hget (hset s1.heap ar.prev ar) a = some ar := by
          rw [← hap]
          exact hget_hset_eq _ _ _ _ har
        rw [e1] at h
        injection h with h
        have hr := congrArg Prod.fst h
        have hs := congrArg Prod.snd h
        dsimp only at hr hs
        refine ⟨hr.symm, ?_⟩
        rw [← hs]
        exact hget_hset_eq _ _ _ _ e1
      · have e1 : hget (hset s1.heap ar.prev { pc with bytes := ar.bytes }) a = some ar := by
          rw [hget_hset_ne _ _ _ _ hap]
          exact har
        rw [e1] at h
        injection h with h
        have hr := congrArg Prod.fst h
        have hs := congrArg Prod.snd h
        dsimp only at hr hs
        refine ⟨hr.symm, ?_⟩
        rw [← hs]
        exact hget_hset_eq _ _ _ _ e1

theorem installChunk_eq (s : GState) (a p : Nat) (l : Int) (ar pv : ArenaS)
    (hne : a ≠ p) (har : hget s.heap a = some ar) (hp : hget s.heap p = some pv) :
    installChunk s a p l =
      some { s with
        heap := hset (hset (hset s.heap p ar) a
              ({ ar with avail := (p : Int) + (headerSize : Int), limit := l, prev := p })) p
            ({ ar with type := RAII_ARENA }) } := by
  unfold installChunk
  rw [har]
  dsimp only
  have e1 : hget (hset s.heap p ar) a = some ar := by
    rw [hget_hset_ne _ _ _ _ hne]
    exact har
  rw [e1]
  dsimp only
  have e2 : hget (hset (hset s.heap p ar) a
      ({ ar with avail := (p : Int) + (headerSize : Int), limit := l, prev := p })) p
      = some ar := by
    rw [hget_hset_ne _ _ _ _ (Ne.symm hne)]
    exact hget_hset_eq _ _ _ _ hp
  rw [e2]

theorem hget_hinsert_self (h : Heap) (p : Nat) (v : ArenaS) :
    hget (hinsert h p v) p = some v := by
  unfold hinsert
  exact hget_cons_self _ _ _

theorem hget_hinsert_ne (h : Heap) (a p : Nat) (v : ArenaS) (hne : a ≠ p) :
    hget (hinsert h p v) a = hget h a := by
  unfold hinsert
  show (if p = a then some v else hget (hdel h p) a) = hget h a
  rw [if_neg (fun hh => hne hh.symm)]
  exact hget_hdel_ne _ _ _ hne

/-- C4: the allocation policy of `malloc_arena`.  (i) The request is rounded
up to the next multiple of `sizeof(union header)` (`roundUp`) and, when the
rounded size fits in `[avail, limit)`, the call returns the old `avail`,
advances `avail` by exactly the rounded size and records it in `bytes`,
touching neither the free list head nor the system allocator.  (ii) When
the request does not fit, an acquisition iteration pops the head chunk of
the free list whenever that list is non-empty, without any system
allocation.  (iii) Only when the free list is empty does an acquisition
iteration grow through the system allocator, and the block grows by exactly
the rounded request plus the fixed slack
`sizeof(union header) + THRESHOLD * 1024` (visible both in the allocator
advance and in the handle's `total`). -/
theorem c4_allocation_policy :
    (∀ (s : GState) (a : Nat) (n r : Int) (s2 : GState) (ar : ArenaS),
      hget s.heap a = some ar →
      roundUp n ≤ ar.limit - ar.avail →
      malloc_arena s a n = some (r, s2) →
      r = ar.avail ∧
      hget s2.heap a = some ({ ar with bytes := roundUp n, avail := ar.avail + roundUp n }) ∧
      s2.freeList = s.freeList ∧ s2.nextAddr = s.nextAddr) ∧
    (∀ (s : GState) (a : Nat) (nb : Int) (s1 : GState) (fc : ArenaS),
      s.freeList ≠ 0 → hget s.heap s.freeList = some fc →
      acquire_chunk s a nb = some s1 →
      s1.freeList = fc.prev ∧ s1.numFree = s.numFree - 1 ∧ s1.nextAddr = s.nextAddr) ∧
    (∀ (s : GState) (a : Nat) (nb : Int) (s1 : GState) (ar : ArenaS),
      s.freeList = 0 → hget s.heap a = some ar → a ≠ s.nextAddr → a ≠ ar.base →
      acquire_chunk s a nb = some s1 →
      s1.nextAddr = s.nextAddr + ((headerSize : Int) + nb + THRESHOLD * 1024).toNat ∧
      s1.freeList = s.freeList ∧ s1.numFree = s.numFree ∧
      (∃ ar2, hget s1.heap a = some ar2 ∧
        ar2.total = ar.total + ((headerSize : Int) + nb + THRESHOLD * 1024) ∧
        ar2.base = s.nextAddr)) := by
  refine ⟨?_, ?_, ?_⟩
  · intro s a n r s2 ar har hfit hm
    unfold malloc_arena at hm
    by_cases h0 : a = 0
    · rw [if_pos h0] at hm
      exact absurd hm (by simp)
    · rw [if_neg h0] at hm
      by_cases hn : n ≤ 0
      · rw [if_pos hn] at hm
        exact absurd hm (by simp)
      · rw [if_neg hn] at hm
        dsimp only at hm
        have h64 : (64 : Nat) = 63 + 1 := rfl
        rw [h64] at hm
        by_cases hc : arena_capacity s a = arena_total s a
        · rw [if_pos hc] at hm
          rw [malloc_loop_fit 63 { s with numFree := 0 } a (roundUp n) ar har
            (not_lt.mpr hfit)] at hm
          dsimp only at hm
          obtain ⟨hr, hh⟩ := malloc_finish_spec { s with numFree := 0 } a (roundUp n) r s2 ar
            har hm
          obtain ⟨hf, hnf, hna⟩ := malloc_finish_globals _ _ _ _ _ hm
          exact ⟨hr, hh, hf, hna⟩
        · rw [if_neg hc] at hm
          rw [malloc_loop_fit 63 s a (roundUp n) ar har (not_lt.mpr hfit)] at hm
          dsimp only at hm
          obtain ⟨hr, hh⟩ := malloc_finish_spec s a (roundUp n) r s2 ar har hm
          obtain ⟨hf, hnf, hna⟩ := malloc_finish_globals _ _ _ _ _ hm
          exact ⟨hr, hh, hf, hna⟩
  · intro s a nb s1 fc hfl hfc hacq
    unfold acquire_chunk at hacq
    rw [if_pos hfl, hfc] at hacq
    dsimp only at hacq
    exact installChunk_globals _ _ _ _ _ hacq
  · intro s a nb s1 ar hfl har hne hab hacq
    unfold acquire_chunk at hacq
    rw [if_neg (fun hh => hh hfl), har] at hacq
    dsimp only at hacq
    cases hb : hget (hset s.heap a
        ({ ar with total := ar.total + ((headerSize : Int) + nb + THRESHOLD * 1024) }))
        ar.base with
    | some c =>
      rw [hb] at hacq
      dsimp only at hacq
      have e : hget (hinsert (hdel (hset s.heap a
          ({ ar with total := ar.total + ((headerSize : Int) + nb + THRESHOLD * 1024) }))
          ar.base) s.nextAddr c) a =
          some ({ ar with total := ar.total + ((headerSize : Int) + nb + THRESHOLD * 1024) }) := by
        rw [hget_hinsert_ne _ _ _ _ hne, hget_hdel_ne _ _ _ hab]
        exact hget_hset_eq _ _ _ _ har
      rw [e] at hacq
      dsimp only at hacq
      have har2 : hget (GState.mk (hset (hinsert (hdel (hset s.heap a ({ ar with total := ar.total + ((headerSize : Int) + nb + THRESHOLD * 1024) })) ar.base) s.nextAddr c) a ({ ar with base := s.nextAddr, total := ar.total + ((headerSize : Int) + nb + THRESHOLD * 1024) })) s.freeList s.numFree (s.nextAddr + ((headerSize : Int) + nb + THRESHOLD * 1024).toNat)).heap a = some ({ ar with base := s.nextAddr, total := ar.total + ((headerSize : Int) + nb + THRESHOLD * 1024) }) := hget_hset_eq _ _ _ _ e
      have hp2 : hget (GState.mk (hset (hinsert (hdel (hset s.heap a ({ ar with total := ar.total + ((headerSize : Int) + nb + THRESHOLD * 1024) })) ar.base) s.nextAddr c) a ({ ar with base := s.nextAddr, total := ar.total + ((headerSize : Int) + nb + THRESHOLD * 1024) })) s.freeList s.numFree (s.nextAddr + ((headerSize : Int) + nb + THRESHOLD * 1024).toNat)).heap s.nextAddr = some c := by
        rw [hget_hset_ne _ _ _ _ (Ne.symm hne)]
        exact hget_hinsert_self _ _ _
      rw [installChunk_eq (GState.mk (hset (hinsert (hdel (hset s.heap a ({ ar with total := ar.total + ((headerSize : Int) + nb + THRESHOLD * 1024) })) ar.base) s.nextAddr c) a ({ ar with base := s.nextAddr, total := ar.total + ((headerSize : Int) + nb + THRESHOLD * 1024) })) s.freeList s.numFree (s.nextAddr + ((headerSize : Int) + nb + THRESHOLD * 1024).toNat)) a s.nextAddr ((s.nextAddr : Int) + (ar.total + ((headerSize : Int) + nb + THRESHOLD * 1024))) ({ ar with base := s.nextAddr, total := ar.total + ((headerSize : Int) + nb + THRESHOLD * 1024) }) c hne har2 hp2] at hacq
      injection hacq with hacq
      rw [← hacq]
      have f1 : hget (hset (GState.mk (hset (hinsert (hdel (hset s.heap a ({ ar with total := ar.total + ((headerSize : Int) + nb + THRESHOLD * 1024) })) ar.base) s.nextAddr c) a ({ ar with base := s.nextAddr, total := ar.total + ((headerSize : Int) + nb + THRESHOLD * 1024) })) s.freeList s.numFree (s.nextAddr + ((headerSize : Int) + nb + THRESHOLD * 1024).toNat)).heap s.nextAddr ({ ar with base := s.nextAddr, total := ar.total + ((headerSize : Int) + nb + THRESHOLD * 1024) })) a = some ({ ar with base := s.nextAddr, total := ar.total + ((headerSize : Int) + nb + THRESHOLD * 1024) }) := by
        rw [hget_hset_ne _ _ _ _ hne]
        exact har2
      have f2 := hget_hset_eq (hset (GState.mk (hset (hinsert (hdel (hset s.heap a ({ ar with total := ar.total + ((headerSize : Int) + nb + THRESHOLD * 1024) })) ar.base) s.nextAddr c) a ({ ar with base := s.nextAddr, total := ar.total + ((headerSize : Int) + nb + THRESHOLD * 1024) })) s.freeList s.numFree (s.nextAddr + ((headerSize : Int) + nb + THRESHOLD * 1024).toNat)).heap s.nextAddr ({ ar with base := s.nextAddr, total := ar.total + ((headerSize : Int) + nb + THRESHOLD * 1024) })) a ({ { ar with base := s.nextAddr, total := ar.total + ((headerSize : Int) + nb + THRESHOLD * 1024) } with avail := (s.nextAddr : Int) + (headerSize : Int), limit := ((s.nextAddr : Int) + (ar.total + ((headerSize : Int) + nb + THRESHOLD * 1024))), prev := s.nextAddr } : ArenaS) _ f1
      refine ⟨rfl, rfl, rfl, ({ ar with base := s.nextAddr, total := ar.total + ((headerSize : Int) + nb + THRESHOLD * 1024), avail := (s.nextAddr : Int) + (headerSize : Int), limit := ((s.nextAddr : Int) + (ar.total + ((headerSize : Int) + nb + THRESHOLD * 1024))), prev := s.nextAddr } : ArenaS), ?_, rfl, rfl⟩
      rw [hget_hset_ne _ _ _ _ hne]
      exact f2
    | none =>
      rw [hb] at hacq
      dsimp only at hacq
      have e : hget (hinsert (hset s.heap a ({ ar with total := ar.total + ((headerSize : Int) + nb + THRESHOLD * 1024) })) s.nextAddr junkArena) a = some ({ ar with total := ar.total + ((headerSize : Int) + nb + THRESHOLD * 1024) }) := by
        rw [hget_hinsert_ne _ _ _ _ hne]
        exact hget_hset_eq _ _ _ _ har
      rw [e] at hacq
      dsimp only at hacq
      have har2 : hget (GState.mk (hset (hinsert (hset s.heap a ({ ar with total := ar.total + ((headerSize : Int) + nb + THRESHOLD * 1024) })) s.nextAddr junkArena) a ({ ar with base := s.nextAddr, total := ar.total + ((headerSize : Int) + nb + THRESHOLD * 1024) })) s.freeList s.numFree (s.nextAddr + ((headerSize : Int) + nb + THRESHOLD * 1024).toNat)).heap a = some ({ ar with base := s.nextAddr, total := ar.total + ((headerSize : Int) + nb + THRESHOLD * 1024) }) := hget_hset_eq _ _ _ _ e
      have hp2 : hget (GState.mk (hset (hinsert (hset s.heap a ({ ar with total := ar.total + ((headerSize : Int) + nb + THRESHOLD * 1024) })) s.nextAddr junkArena) a ({ ar with base := s.nextAddr, total := ar.total + ((headerSize : Int) + nb + THRESHOLD * 1024) })) s.freeList s.numFree (s.nextAddr + ((headerSize : Int) + nb + THRESHOLD * 1024).toNat)).heap s.nextAddr = some junkArena := by
        rw [hget_hset_ne _ _ _ _ (Ne.symm hne)]
        exact hget_hinsert_self _ _ _
      rw [installChunk_eq (GState.mk (hset (hinsert (hset s.heap a ({ ar with total := ar.total + ((headerSize : Int) + nb + THRESHOLD * 1024) })) s.nextAddr junkArena) a ({ ar with base := s.nextAddr, total := ar.total + ((headerSize : Int) + nb + THRESHOLD * 1024) })) s.freeList s.numFree (s.nextAddr + ((headerSize : Int) + nb + THRESHOLD * 1024).toNat)) a s.nextAddr ((s.nextAddr : Int) + (ar.total + ((headerSize : Int) + nb + THRESHOLD * 1024))) ({ ar with base := s.nextAddr, total := ar.total + ((headerSize : Int) + nb + THRESHOLD * 1024) }) junkArena hne har2 hp2] at hacq
      injection hacq with hacq
      rw [← hacq]
      have f1 : hget (hset (GState.mk (hset (hinsert (hset s.heap a ({ ar with total := ar.total + ((headerSize : Int) + nb + THRESHOLD * 1024) })) s.nextAddr junkArena) a ({ ar with base := s.nextAddr, total := ar.total + ((headerSize : Int) + nb + THRESHOLD * 1024) })) s.freeList s.numFree (s.nextAddr + ((headerSize : Int) + nb + THRESHOLD * 1024).toNat)).heap s.nextAddr ({ ar with base := s.nextAddr, total := ar.total + ((headerSize : Int) + nb + THRESHOLD * 1024) })) a = some ({ ar with base := s.nextAddr, total := ar.total + ((headerSize : Int) + nb + THRESHOLD * 1024) }) := by
        rw [hget_hset_ne _ _ _ _ hne]
        exact har2
      have f2 := hget_hset_eq (hset (GState.mk (hset (hinsert (hset s.heap a ({ ar with total := ar.total + ((headerSize : Int) + nb + THRESHOLD * 1024) })) s.nextAddr junkArena) a ({ ar with base := s.nextAddr, total := ar.total + ((headerSize : Int) + nb + THRESHOLD * 1024) })) s.freeList s.numFree (s.nextAddr + ((headerSize : Int) + nb + THRESHOLD * 1024).toNat)).heap s.nextAddr ({ ar with base := s.nextAddr, total := ar.total + ((headerSize : Int) + nb + THRESHOLD * 1024) })) a ({ { ar with base := s.nextAddr, total := ar.total + ((headerSize : Int) + nb + THRESHOLD * 1024) } with avail := (s.nextAddr : Int) + (headerSize : Int), limit := ((s.nextAddr : Int) + (ar.total + ((headerSize : Int) + nb + THRESHOLD * 1024))), prev := s.nextAddr } : ArenaS) _ f1
      refine ⟨rfl, rfl, rfl, ({ ar with base := s.nextAddr, total := ar.total + ((headerSize : Int) + nb + THRESHOLD * 1024), avail := (s.nextAddr : Int) + (headerSize : Int), limit := ((s.nextAddr : Int) + (ar.total + ((headerSize : Int) + nb + THRESHOLD * 1024))), prev := s.nextAddr } : ArenaS), ?_, rfl, rfl⟩
      rw [hget_hset_ne _ _ _ _ hne]
      exact f2

/-- Closed instance of `c4_allocation_policy`: a fitting 8-byte request
(rounded to 16), a pop from a non-empty free list, and a growth step from
an empty free list. -/
theorem c4_allocation_policy_witness :
    (hget [(1, ArenaS.mk 3 0 100 200 0 0 0)] 1 = some (ArenaS.mk 3 0 100 200 0 0 0) ∧
     roundUp 8 ≤ (200 : Int) - 100 ∧
     malloc_arena (GState.mk [(1, ArenaS.mk 3 0 100 200 0 0 0)] 0 0 5) 1 8 =
       some (100, GState.mk [(1, ArenaS.mk 3 0 116 200 0 16 0)] 0 0 5) ∧
     (100 : Int) = (ArenaS.mk 3 0 100 200 0 0 0).avail) ∧
    ((2 : Nat) ≠ 0 ∧
     hget [(1, ArenaS.mk 3 0 20 20 0 0 0), (2, ArenaS.mk 1 0 0 50 2 0 48)] 2 =
       some (ArenaS.mk 1 0 0 50 2 0 48) ∧
     acquire_chunk (GState.mk [(1, ArenaS.mk 3 0 20 20 0 0 0),
         (2, ArenaS.mk 1 0 0 50 2 0 48)] 2 3 9) 1 16 =
       some (GState.mk [(1, ArenaS.mk 3 2 18 50 0 0 0),
         (2, ArenaS.mk 1 0 20 20 0 0 0)] 0 2 9) ∧
     (GState.mk [(1, ArenaS.mk 3 2 18 50 0 0 0),
         (2, ArenaS.mk 1 0 20 20 0 0 0)] 0 2 9).numFree = (3 : Int) - 1) ∧
    (acquire_chunk (GState.mk [(1, ArenaS.mk 3 0 0 0 0 0 0)] 0 0 2) 1 16 =
       some (GState.mk [(2, ArenaS.mk 1 0 0 0 2 0 10272),
         (1, ArenaS.mk 3 2 18 10274 2 0 10272)] 0 0 10274) ∧
     (GState.mk [(2, ArenaS.mk 1 0 0 0 2 0 10272),
         (1, ArenaS.mk 3 2 18 10274 2 0 10272)] 0 0 10274).nextAddr =
       2 + ((headerSize : Int) + 16 + THRESHOLD * 1024).toNat) := by
  refine ⟨⟨by decide, by decide, by decide, ?_⟩, ⟨by decide, by decide, by decide, ?_⟩,
    by decide, ?_⟩
  · exact (c4_allocation_policy.1 (GState.mk [(1, ArenaS.mk 3 0 100 200 0 0 0)] 0 0 5) 1 8 100
      (GState.mk [(1, ArenaS.mk 3 0 116 200 0 16 0)] 0 0 5) (ArenaS.mk 3 0 100 200 0 0 0)
      (by decide) (by decide) (by decide)).1
  · exact (c4_allocation_policy.2.1 (GState.mk [(1, ArenaS.mk 3 0 20 20 0 0 0),
      (2, ArenaS.mk 1 0 0 50 2 0 48)] 2 3 9) 1 16
      (GState.mk [(1, ArenaS.mk 3 2 18 50 0 0 0), (2, ArenaS.mk 1 0 20 20 0 0 0)] 0 2 9)
      (ArenaS.mk 1 0 0 50 2 0 48) (by decide) (by decide) (by decide)).2.1
  · exact (c4_allocation_policy.2.2 (GState.mk [(1, ArenaS.mk 3 0 0 0 0 0 0)] 0 0 2) 1 16
      (GState.mk [(2, ArenaS.mk 1 0 0 0 2 0 10272),
        (1, ArenaS.mk 3 2 18 10274 2 0 10272)] 0 0 10274)
      (ArenaS.mk 3 0 0 0 0 0 0) (by decide) (by decide) (by decide) (by decide) (by decide)).1

theorem roundUp_pos (n : Int) (h : 0 < n) : 0 < roundUp n := by
  unfold roundUp headerSize
  push_cast
  omega

theorem roundUp_le (n : Int) : roundUp n ≤ n + 15 := by
  unfold roundUp headerSize
  push_cast
  omega

theorem malloc_loop_step (fuel : Nat) (s : GState) (a : Nat) (nb : Int) (ar : ArenaS)
    (s1 : GState) (har : hget s.heap a = some ar) (hgt : nb > ar.limit - ar.avail)
    (hacq : acquire_chunk s a nb = some s1) :
    malloc_loop (fuel + 1) s a nb = malloc_loop fuel s1 a nb := by
  conv_lhs => unfold malloc_loop
  rw [har]
  dsimp only
  rw [if_pos hgt, hacq]

/-- C5 amended: for a freshly initialized arena (pristine globals) and a
single allocation of any size `n` with `0 < n ≤ 2 ^ 32` (the bound keeps
the model inside `size_t` range), `arena_clear` restores
`arena_capacity = arena_total`.  With two or more allocations per cycle the
clear under-restores `avail` (it only subtracts the last allocation) and
capacity falls short of total, see the counterexample. -/
theorem c5_amended_single_allocation (n : Int) (hn : 0 < n) (hub : n ≤ 2 ^ 32) :
    ∃ (r : Int) (s2 s3 : GState),
      malloc_arena (arena_init initState).2 (arena_init initState).1 n = some (r, s2) ∧
      arena_clear s2 (arena_init initState).1 = some s3 ∧
      arena_capacity s3 (arena_init initState).1 = arena_total s3 (arena_init initState).1 := by
  have ha1 : (arena_init initState).1 = 1 := rfl
  have e_acq : ∀ nb : Int, acquire_chunk (GState.mk [(1, ArenaS.mk 3 0 0 0 0 0 0)] 0 0 57) 1 nb =
      some (GState.mk [(57, ArenaS.mk 1 0 0 0 57 0 (nb + 10256)),
        (1, ArenaS.mk 3 57 73 (nb + 10313) 57 0 (nb + 10256))] 0 0 (57 + (nb + 10256).toNat)) := by
    intro nb
    simp [acquire_chunk, installChunk, hget, hset, hinsert, hdel, headerSize, THRESHOLD,
      junkArena, GState.mk.injEq, ArenaS.mk.injEq]
    refine ⟨⟨⟨rfl, by omega⟩, by omega, by omega⟩, by omega⟩
  refine ⟨73,
    GState.mk [(57, ArenaS.mk 1 0 0 0 57 0 (roundUp n + 10256)),
      (1, ArenaS.mk 3 57 (73 + roundUp n) (roundUp n + 10313) 57 (roundUp n)
        (roundUp n + 10256))] 0 0 (57 + (roundUp n + 10256).toNat),
    GState.mk [(57, ArenaS.mk 1 0 0 0 57 0 (roundUp n + 10256)),
      (1, ArenaS.mk 3 57 (73 + roundUp n - roundUp n) (roundUp n + 10313) 57 (roundUp n)
        (roundUp n + 10256))] 57 1 (57 + (roundUp n + 10256).toNat),
    ?_, ?_, ?_⟩
  · rw [ha1, show (arena_init initState).2 = GState.mk [(1, ArenaS.mk 3 0 0 0 0 0 0)] 0 0 57
      from rfl]
    unfold malloc_arena
    rw [if_neg (by decide : ¬ (1 : Nat) = 0), if_neg (by omega : ¬ n ≤ 0)]
    dsimp only
    rw [if_pos (by decide : arena_capacity (GState.mk [(1, ArenaS.mk 3 0 0 0 0 0 0)] 0 0 57) 1 =
      arena_total (GState.mk [(1, ArenaS.mk 3 0 0 0 0 0 0)] 0 0 57) 1)]
    rw [show ({ GState.mk [(1, ArenaS.mk 3 0 0 0 0 0 0)] 0 0 57 with numFree := 0 } : GState) =
      GState.mk [(1, ArenaS.mk 3 0 0 0 0 0 0)] 0 0 57 from rfl]
    rw [show (64 : Nat) = 63 + 1 from rfl]
    rw [malloc_loop_step 63 (GState.mk [(1, ArenaS.mk 3 0 0 0 0 0 0)] 0 0 57) 1 (roundUp n)
      (ArenaS.mk 3 0 0 0 0 0 0) _ rfl
      (by show (0 : Int) - 0 < roundUp n
          have := roundUp_pos n hn
          omega)
      (e_acq (roundUp n))]
    rw [show (63 : Nat) = 62 + 1 from rfl]
    rw [malloc_loop_fit 62 (GState.mk [(57, ArenaS.mk 1 0 0 0 57 0 (roundUp n + 10256)),
        (1, ArenaS.mk 3 57 73 (roundUp n + 10313) 57 0 (roundUp n + 10256))] 0 0
        (57 + (roundUp n + 10256).toNat)) 1 (roundUp n)
      (ArenaS.mk 3 57 73 (roundUp n + 10313) 57 0 (roundUp n + 10256)) rfl
      (by show ¬ (roundUp n + 10313 - 73 < roundUp n)
          omega)]
    rfl
  · rw [ha1]
    rfl
  · rw [ha1]
    have hx : 0 < roundUp n := roundUp_pos n hn
    have hy : roundUp n ≤ n + 15 := roundUp_le n
    have hub2 : n ≤ 4294967296 := by
      have : (2 : Int) ^ 32 = 4294967296 := by norm_num
      omega
    simp [arena_capacity, arena_total, hget, sizeT, headerSize, RAII_ARENA, RAII_STRUCT]
    omega

/-- Closed instance of `c5_amended_single_allocation` at `n = 16`. -/
theorem c5_amended_single_allocation_witness :
    (0 : Int) < 16 ∧ (16 : Int) ≤ 2 ^ 32 ∧
    (∃ (r : Int) (s2 s3 : GState),
      malloc_arena (arena_init initState).2 (arena_init initState).1 16 = some (r, s2) ∧
      arena_clear s2 (arena_init initState).1 = some s3 ∧
      arena_capacity s3 (arena_init initState).1 = arena_total s3 (arena_init initState).1) :=
  ⟨by decide, by decide, c5_amended_single_allocation 16 (by decide) (by decide)⟩
